import Mathlib

/-!
Shallow embedding of `pgmpy/models/NaiveBayesModel.py` (class `NaiveBayesModel`).

Nodes are modelled as `String` (Python node identifiers; in the source all
examples use string names, and several source lines iterate over a node name
character by character, which only type-checks for strings).  A Python method
that may raise is modelled as returning `Option String × State`: the first
component is `some msg` when the method raises `ValueError(msg)` and the
second component is the state of the object when the call returns or the
exception escapes.  `__init__` is modelled as `Except String NaiveBayesModel`
because a failing constructor yields no object.
-/

/-- Python truthiness of the `self.parent_node` attribute: `None` is falsy and
a string is falsy exactly when it is empty (source line 111: the test
`if self.parent_node and ...`). -/
def pyBool : Option String → Bool
  | none => false
  | some s => !(s == "")

/-- Python `set(s)` for a string `s` iterates its characters, yielding
one-character strings (source lines 86, 128, 159, 188 apply `set` directly to
a node name). -/
def charList (s : String) : List String :=
  s.toList.map (fun c => String.singleton c)

/-- Message of the `ValueError` raised on a single-parent violation
(source lines 83 and 112). -/
def StructureViolation : String := "Model can have only one parent node."

/-- Message of the `ValueError` raised by `fit` when the designated parent is
not a column of the data (source line 229). -/
def DataSchemaError (node : String) : String :=
  "parent node: " ++ node ++ " is not present in the given data"

/-- State of a `NaiveBayesModel` object: the underlying directed-graph store
(`nodes`, `edges`, both in insertion order and duplicate-free) together with
the two attributes `parent_node` and `children_nodes` set up in `__init__`
(source lines 78-79).  `children_nodes` is a Python list, so it is a `List`
here, not a set. -/
structure NaiveBayesModel where
  nodes : List String
  edges : List (String × String)
  parent_node : Option String
  children_nodes : List String
deriving DecidableEq, Repr

/-- The state of a freshly constructed empty model (`NaiveBayesModel()`):
no nodes, no edges, `parent_node = None`, `children_nodes = []`. -/
def NaiveBayesModel.emptyModel : NaiveBayesModel :=
  ⟨[], [], none, []⟩

/-- Modelled from the spec: `add_node` of the generic directed-graph store
(pgmpy `DirectedGraph`/networkx, not under `src/`); idempotent insertion of a
node (spec section 6: "multi-edge-safe, idempotent semantics"). -/
def storeAddNode (m : NaiveBayesModel) (n : String) : NaiveBayesModel :=
  if n ∈ m.nodes then m else { m with nodes := m.nodes ++ [n] }

/-- Modelled from the spec: `add_edge` of the generic directed-graph store
(pgmpy `BayesianModel`/`DirectedGraph`, not under `src/`); auto-creates the
two endpoints and idempotently inserts the edge (spec section 6). -/
def storeAddEdge (m : NaiveBayesModel) (u v : String) : NaiveBayesModel :=
  let m1 := storeAddNode (storeAddNode m u) v
  if (u, v) ∈ m1.edges then m1 else { m1 with edges := m1.edges ++ [(u, v)] }

/-- `NaiveBayesModel.add_edge(u, v)` (source lines 89-115).  When the guard
`if self.parent_node and u != self.parent_node` fires, `ValueError` is raised
before any mutation; otherwise `parent_node` is assigned `u`,
`children_nodes.append(v)` runs unconditionally, and the edge is inserted in
the underlying store.  `hasattr(self, 'parent_node')` is true on every
constructed object, so the guard block always runs here; the unguarded calls
made while `super().__init__` is still executing are modelled separately in
`NaiveBayesModel.construct`. -/
def NaiveBayesModel.add_edge (m : NaiveBayesModel) (u v : String) :
    Option String × NaiveBayesModel :=
  if pyBool m.parent_node ∧ m.parent_node ≠ some u then
    (some StructureViolation, m)
  else
    (none, storeAddEdge
      { m with parent_node := some u,
               children_nodes := m.children_nodes ++ [v] } u v)

/-- Loop of `__init__` over `self.edges()` (source lines 81-84): for each edge
`(parent, child)`, `if self.parent_node and parent != self.parent_node` raise
`ValueError`, else assign `self.parent_node = parent`. -/
def initLoop : Option String → List (String × String) → Except String (Option String)
  | cur, [] => .ok cur
  | cur, (parent, _) :: rest =>
    if pyBool cur ∧ cur ≠ some parent then .error StructureViolation
    else initLoop (some parent) rest

/-- `NaiveBayesModel.__init__(ebunch)` (source lines 76-86).
`super().__init__(ebunch)` adds every edge through the store without the
single-parent guard (the `parent_node` attribute does not exist yet, so the
`hasattr` test in `add_edge` fails); then `parent_node`/`children_nodes` are
initialised, and if `ebunch` is truthy the edge loop runs and finally
`children_nodes = list(set(self.nodes()) - set(self.parent_node))` — note
`set(self.parent_node)` iterates the characters of the parent's name.  If the
edge list were empty with `ebunch` truthy, `set(None)` would raise
`TypeError`; that branch is modelled as an error. -/
def NaiveBayesModel.construct (ebunch : List (String × String)) :
    Except String NaiveBayesModel :=
  let g0 := ebunch.foldl (fun m e => storeAddEdge m e.1 e.2) NaiveBayesModel.emptyModel
  let g : NaiveBayesModel := { g0 with parent_node := none, children_nodes := [] }
  if ebunch = [] then .ok g
  else
    match initLoop none g.edges with
    | .error e => .error e
    | .ok none => .error "TypeError"
    | .ok (some p) =>
      .ok { g with parent_node := some p,
                   children_nodes := g.nodes.filter (fun n => n ∉ charList p) }

/-- `NaiveBayesModel.active_trail_nodes(start, observed)` (source lines
131-161).  `observed` defaults to `None`, which behaves exactly like `[]` in
both tests, so it is modelled as a list.  Note `set(start)` on the first
branch (source line 159) iterates the characters of `start`. -/
def NaiveBayesModel.active_trail_nodes (m : NaiveBayesModel) (start : String)
    (observed : List String) : Finset String :=
  if (!observed.isEmpty) && (match m.parent_node with
                             | some p => observed.contains p
                             | none => false) then
    (charList start).toFinset
  else
    m.nodes.toFinset \ observed.toFinset

/-- A Python value passed as the `variables` argument of
`local_independencies`: a string, an integer, or a list. -/
inductive PyObj where
  | pyStr (s : String)
  | pyInt (n : Int)
  | pyList (xs : List PyObj)

/-- Normalisation at source line 185:
`[variables] if isinstance(variables, str) else variables` — a string is
wrapped into a one-element list, anything else is iterated: a list yields its
elements and an integer raises `TypeError` (not iterable). -/
def normalizeVariables : PyObj → Except String (List PyObj)
  | .pyStr s => .ok [.pyStr s]
  | .pyList xs => .ok xs
  | .pyInt _ => .error "TypeError: argument of type int is not iterable"

instance {ε α : Type} [DecidableEq ε] [DecidableEq α] : DecidableEq (Except ε α)
  | .error e, .error f =>
    if h : e = f then .isTrue (congrArg Except.error h)
    else .isFalse (fun hc => h (Except.error.inj hc))
  | .error _, .ok _ => .isFalse (fun hc => Except.noConfusion hc)
  | .ok _, .error _ => .isFalse (fun hc => Except.noConfusion hc)
  | .ok a, .ok b =>
    if h : a = b then .isTrue (congrArg Except.ok h)
    else .isFalse (fun hc => h (Except.ok.inj hc))

/-- The data carried by the `Independencies([variable, rest, parent])` value
built at source lines 187-188 (pgmpy `IndependenceAssertion` fields): the
queried variable, the set it is asserted independent of, and the conditioning
value `self.parent_node` passed through as-is. -/
structure IndependenceAssertion where
  event1 : String
  event2 : Finset String
  event3 : Option String
deriving DecidableEq

/-- Body of the loop of `local_independencies` (source lines 185-191) for a
list of already-normalised variables.  For each string variable, if
`variable != self.parent_node` an assertion
`[variable, list(set(self.children_nodes) - set(variable)), self.parent_node]`
is appended — `set(variable)` iterates the characters of the variable's name —
otherwise `None` is appended.  A non-string variable makes `set(variable)`
raise `TypeError`. -/
def localIndepAux (m : NaiveBayesModel) :
    List PyObj → Except String (List (Option IndependenceAssertion))
  | [] => .ok []
  | .pyStr s :: rest =>
    match localIndepAux m rest with
    | .error e => .error e
    | .ok r =>
      if m.parent_node ≠ some s then
        .ok (some ⟨s, m.children_nodes.toFinset \ (charList s).toFinset,
                   m.parent_node⟩ :: r)
      else .ok (none :: r)
  | _ :: _ => .error "TypeError: argument is not iterable"

/-- `NaiveBayesModel.local_independencies(variables)` (source lines 163-191):
normalise the argument, then run the per-variable loop. -/
def NaiveBayesModel.local_independencies (m : NaiveBayesModel) (varArg : PyObj) :
    Except String (List (Option IndependenceAssertion)) :=
  match normalizeVariables varArg with
  | .error e => .error e
  | .ok vs => localIndepAux m vs

/-- Loop of `fit` over `data.columns` (source lines 230-232): for every
column other than `parent_node`, call `self.add_edge(parent_node, column)`;
an exception raised there escapes with the mutations already made kept. -/
def fitLoop (p : String) : NaiveBayesModel → List String →
    Option String × NaiveBayesModel
  | m, [] => (none, m)
  | m, c :: rest =>
    if c = p then fitLoop p m rest
    else
      match m.add_edge p c with
      | (some e, m') => (some e, m')
      | (none, m') => fitLoop p m' rest

/-- `NaiveBayesModel.fit(data, parent_node)` (source lines 193-233): raise
`ValueError` if `parent_node` is not a column of the data, otherwise add one
edge per non-parent column and delegate to `super().fit` (the external
estimator, out of scope).  The first component is the raised message, if any;
error `none` means the loop completed and the completed structure and the
data were handed to the estimator. -/
def NaiveBayesModel.fit (m : NaiveBayesModel) (columns : List String)
    (parent_node : String) : Option String × NaiveBayesModel :=
  if parent_node ∉ columns then (some (DataSchemaError parent_node), m)
  else fitLoop parent_node m columns

example :
    (NaiveBayesModel.emptyModel.add_edge "a" "b").2.children_nodes = ["b"] := by
  decide

example :
    ((NaiveBayesModel.emptyModel.add_edge "a" "b").2.add_edge "a" "b").2.children_nodes
      = ["b", "b"] := by
  decide

example :
    ((NaiveBayesModel.emptyModel.add_edge "a" "b").2.add_edge "c" "d").1
      = some StructureViolation := by
  decide

example :
    NaiveBayesModel.construct [("ab", "c")] =
      .ok ⟨["ab", "c"], [("ab", "c")], some "ab", ["ab", "c"]⟩ := by
  rfl

/-! ## The single-parent invariant -/

/-- The structural invariant of the spec (section 3), read at the set level:
every stored edge has `parent_node` as its source, and the entries of
`children_nodes` are exactly the distinct edge targets. -/
def naiveBayesInvariant (m : NaiveBayesModel) : Prop :=
  (∀ e ∈ m.edges, m.parent_node = some e.1) ∧
  m.children_nodes.toFinset = (m.edges.map Prod.snd).toFinset

/-- The parent attribute is unset, or set to a truthy (non-empty) name, so
that the guard of `add_edge` can actually see it. -/
def goodParent (m : NaiveBayesModel) : Prop :=
  m.parent_node = none ∨ ∃ p, m.parent_node = some p ∧ p ≠ ""

instance (m : NaiveBayesModel) : Decidable (naiveBayesInvariant m) := by
  unfold naiveBayesInvariant; infer_instance

instance (m : NaiveBayesModel) : Decidable (goodParent m) := by
  unfold goodParent; infer_instance

@[simp] lemma storeAddNode_edges (m : NaiveBayesModel) (n : String) :
    (storeAddNode m n).edges = m.edges := by
  unfold storeAddNode; split <;> rfl

@[simp] lemma storeAddNode_parent (m : NaiveBayesModel) (n : String) :
    (storeAddNode m n).parent_node = m.parent_node := by
  unfold storeAddNode; split <;> rfl

@[simp] lemma storeAddNode_children (m : NaiveBayesModel) (n : String) :
    (storeAddNode m n).children_nodes = m.children_nodes := by
  unfold storeAddNode; split <;> rfl

lemma storeAddNode_nodes_toFinset (m : NaiveBayesModel) (n : String) :
    (storeAddNode m n).nodes.toFinset = insert n m.nodes.toFinset := by
  unfold storeAddNode
  split
  case isTrue h =>
    exact (Finset.insert_eq_self.mpr (List.mem_toFinset.mpr h)).symm
  case isFalse h =>
    ext x
    simp [or_comm]

lemma storeAddEdge_edges (m : NaiveBayesModel) (u v : String) :
    (storeAddEdge m u v).edges =
      if (u, v) ∈ m.edges then m.edges else m.edges ++ [(u, v)] := by
  unfold storeAddEdge
  simp only [storeAddNode_edges]
  split <;> simp_all

@[simp] lemma storeAddEdge_parent (m : NaiveBayesModel) (u v : String) :
    (storeAddEdge m u v).parent_node = m.parent_node := by
  unfold storeAddEdge
  dsimp only
  split <;> simp

@[simp] lemma storeAddEdge_children (m : NaiveBayesModel) (u v : String) :
    (storeAddEdge m u v).children_nodes = m.children_nodes := by
  unfold storeAddEdge
  dsimp only
  split <;> simp

lemma mem_storeAddEdge_edges (m : NaiveBayesModel) (u v : String)
    (e : String × String) :
    e ∈ (storeAddEdge m u v).edges ↔ e ∈ m.edges ∨ e = (u, v) := by
  rw [storeAddEdge_edges]
  split
  case isTrue h => constructor
                   · exact fun he => Or.inl he
                   · rintro (he | rfl) <;> assumption
  case isFalse h => simp

lemma storeAddEdge_edges_toFinset (m : NaiveBayesModel) (u v : String) :
    (storeAddEdge m u v).edges.toFinset = insert (u, v) m.edges.toFinset := by
  ext e
  rw [List.mem_toFinset, mem_storeAddEdge_edges]
  simp [or_comm]

lemma storeAddEdge_targets (m : NaiveBayesModel) (u v : String) :
    ((storeAddEdge m u v).edges.map Prod.snd).toFinset =
      insert v (m.edges.map Prod.snd).toFinset := by
  rw [storeAddEdge_edges]
  split
  case isTrue h =>
    have hv : v ∈ (m.edges.map Prod.snd).toFinset := by
      rw [List.mem_toFinset]
      exact List.mem_map.mpr ⟨(u, v), h, rfl⟩
    exact (Finset.insert_eq_self.mpr hv).symm
  case isFalse h =>
    ext x
    simp [or_comm]

lemma storeAddEdge_nodes_toFinset (m : NaiveBayesModel) (u v : String) :
    (storeAddEdge m u v).nodes.toFinset = insert v (insert u m.nodes.toFinset) := by
  unfold storeAddEdge
  dsimp only
  split <;> simp [storeAddNode_nodes_toFinset]

lemma storeAddEdge_edges_ne_nil (m : NaiveBayesModel) (u v : String) :
    (storeAddEdge m u v).edges ≠ [] := by
  rw [storeAddEdge_edges]
  split
  case isTrue h => exact List.ne_nil_of_mem h
  case isFalse h => simp

/-- Effect of a successful `add_edge`: preserves the invariant, keeps the
parent truthy, and never moves a truthy parent. -/
lemma add_edge_preserves (m : NaiveBayesModel) (u v : String)
    (hI : naiveBayesInvariant m) (hg : goodParent m) (hu : u ≠ "") :
    naiveBayesInvariant (m.add_edge u v).2 ∧ goodParent (m.add_edge u v).2 ∧
      ∀ q, m.parent_node = some q → q ≠ "" →
        (m.add_edge u v).2.parent_node = some q := by
  unfold NaiveBayesModel.add_edge
  split
  case isTrue h =>
    exact ⟨hI, hg, fun q hq _ => hq⟩
  case isFalse h =>
    have hKey : ∀ q, m.parent_node = some q → q ≠ "" → q = u := by
      intro q hq hqne
      have hpb : pyBool m.parent_node = true := by
        rw [hq]; simp [pyBool, hqne]
      have hsome : m.parent_node = some u := not_not.mp (not_and.mp h hpb)
      rw [hq] at hsome
      simpa using hsome
    refine ⟨⟨?_, ?_⟩, ?_, ?_⟩
    · intro e he
      rw [mem_storeAddEdge_edges] at he
      have hparent : (storeAddEdge
          { m with parent_node := some u,
                   children_nodes := m.children_nodes ++ [v] } u v).parent_node
            = some u := by simp
      rw [hparent]
      rcases he with he | rfl
      · have h1 := hI.1 e he
        rcases hg with hnone | ⟨p, hp, hpne⟩
        · rw [hnone] at h1; exact absurd h1 (by simp)
        · have hpe : p = e.1 := by rw [hp] at h1; simpa using h1
          have he1 : e.1 = u := hKey e.1 (hpe ▸ hp) (hpe ▸ hpne)
          rw [he1]
      · simp
    · rw [storeAddEdge_children, storeAddEdge_targets]
      show (m.children_nodes ++ [v]).toFinset = _
      ext x
      have h2 := hI.2
      simp only [List.toFinset_append, Finset.mem_union, Finset.mem_insert,
        List.mem_toFinset, List.mem_singleton]
      constructor
      · rintro (hx | rfl)
        · right
          have hx' : x ∈ m.children_nodes.toFinset := List.mem_toFinset.mpr hx
          rw [h2] at hx'
          exact List.mem_toFinset.mp hx'
        · left; rfl
      · rintro (rfl | hx)
        · right; rfl
        · left
          have hx' : x ∈ (m.edges.map Prod.snd).toFinset := List.mem_toFinset.mpr hx
          rw [← h2] at hx'
          exact List.mem_toFinset.mp hx'
    · right
      exact ⟨u, by simp, hu⟩
    · intro q hq hqne
      have hqu : q = u := hKey q hq hqne
      subst hqu
      simp

lemma fitLoop_cons_eq (p c : String) (m : NaiveBayesModel) (rest : List String) :
    fitLoop p m (c :: rest) =
      if c = p then fitLoop p m rest
      else match m.add_edge p c with
        | (some e, m') => (some e, m')
        | (none, m') => fitLoop p m' rest := rfl

lemma fitLoop_preserves (p : String) (hp : p ≠ "") :
    ∀ (cols : List String) (m : NaiveBayesModel),
      naiveBayesInvariant m → goodParent m →
      naiveBayesInvariant (fitLoop p m cols).2 ∧ goodParent (fitLoop p m cols).2 ∧
        ∀ q, m.parent_node = some q → q ≠ "" →
          (fitLoop p m cols).2.parent_node = some q := by
  intro cols
  induction cols with
  | nil => intro m hI hg; exact ⟨hI, hg, fun q hq _ => hq⟩
  | cons c rest ih =>
    intro m hI hg
    by_cases hc : c = p
    · simp only [fitLoop, if_pos hc]
      exact ih m hI hg
    · cases hAE : m.add_edge p c with
      | mk err m' =>
        obtain ⟨hI', hg', hpres⟩ := add_edge_preserves m p c hI hg hp
        rw [hAE] at hI' hg' hpres
        simp only at hI' hg' hpres
        cases err with
        | some e =>
          simp only [fitLoop, if_neg hc, hAE]
          exact ⟨hI', hg', hpres⟩
        | none =>
          simp only [fitLoop, if_neg hc, hAE]
          obtain ⟨hI2, hg2, hp2⟩ := ih m' hI' hg'
          exact ⟨hI2, hg2, fun q hq hqn => hp2 q (hpres q hq hqn) hqn⟩

lemma add_edge_root_ok (m : NaiveBayesModel) (p c : String)
    (h : m.parent_node = none ∨ m.parent_node = some p) :
    m.add_edge p c =
      (none, storeAddEdge { m with parent_node := some p,
                                   children_nodes := m.children_nodes ++ [c] } p c) := by
  unfold NaiveBayesModel.add_edge
  rw [if_neg]
  rcases h with h | h <;> rw [h] <;> simp [pyBool]

lemma fitLoop_fresh (p : String) :
    ∀ (cols : List String) (m : NaiveBayesModel),
      (m.parent_node = none ∨ m.parent_node = some p) → cols.Nodup →
      (∀ c ∈ cols, (p, c) ∉ m.edges) →
      (fitLoop p m cols).1 = none ∧
      (fitLoop p m cols).2.edges =
        m.edges ++ (cols.filter (fun c => c ≠ p)).map (fun c => (p, c)) := by
  intro cols
  induction cols with
  | nil => intro m _ _ _; simp [fitLoop]
  | cons c rest ih =>
    intro m hpar hnd hmem
    by_cases hc : c = p
    · rw [fitLoop_cons_eq, if_pos hc]
      obtain ⟨h1, h2⟩ := ih m hpar (List.Nodup.of_cons hnd)
        (fun c' hc' => hmem c' (List.mem_cons_of_mem _ hc'))
      refine ⟨h1, ?_⟩
      rw [h2]
      have hf : (c :: rest).filter (fun x => x ≠ p) = rest.filter (fun x => x ≠ p) := by
        simp [List.filter_cons, hc]
      rw [hf]
    · have hedge : (p, c) ∉ m.edges := hmem c (List.mem_cons_self c rest)
      have hAE := add_edge_root_ok m p c hpar
      simp only [fitLoop_cons_eq, if_neg hc, hAE]
      set m2 : NaiveBayesModel :=
        { m with parent_node := some p, children_nodes := m.children_nodes ++ [c] }
      have hm'edges : (storeAddEdge m2 p c).edges = m.edges ++ [(p, c)] := by
        rw [storeAddEdge_edges]
        rw [if_neg hedge]
      have hm'par : (storeAddEdge m2 p c).parent_node = some p := by simp
      have hrest : ∀ c' ∈ rest, (p, c') ∉ (storeAddEdge m2 p c).edges := by
        intro c' hc' hin
        rw [hm'edges, List.mem_append] at hin
        rcases hin with hin | hin
        · exact hmem c' (List.mem_cons_of_mem _ hc') hin
        · have : c' = c := by simpa using hin
          subst this
          exact (List.nodup_cons.mp hnd).1 hc'
      obtain ⟨h1, h2⟩ := ih (storeAddEdge m2 p c) (Or.inr hm'par)
        (List.Nodup.of_cons hnd) hrest
      refine ⟨h1, ?_⟩
      rw [h2, hm'edges, List.append_assoc]
      congr 1
      simp [List.filter_cons, hc]

lemma fitLoop_union (p : String) :
    ∀ (cols : List String) (m : NaiveBayesModel),
      (m.parent_node = none ∨ m.parent_node = some p) →
      (fitLoop p m cols).1 = none ∧
      (fitLoop p m cols).2.edges.toFinset =
        m.edges.toFinset ∪
          ((cols.filter (fun c => c ≠ p)).map (fun c => (p, c))).toFinset := by
  intro cols
  induction cols with
  | nil => intro m _; simp [fitLoop]
  | cons c rest ih =>
    intro m hpar
    by_cases hc : c = p
    · rw [fitLoop_cons_eq, if_pos hc]
      obtain ⟨h1, h2⟩ := ih m hpar
      refine ⟨h1, ?_⟩
      rw [h2]
      have hf : (c :: rest).filter (fun x => x ≠ p) = rest.filter (fun x => x ≠ p) := by
        simp [List.filter_cons, hc]
      rw [hf]
    · have hAE := add_edge_root_ok m p c hpar
      simp only [fitLoop_cons_eq, if_neg hc, hAE]
      set m2 : NaiveBayesModel :=
        { m with parent_node := some p, children_nodes := m.children_nodes ++ [c] }
      have hm'par : (storeAddEdge m2 p c).parent_node = some p := by simp
      obtain ⟨h1, h2⟩ := ih (storeAddEdge m2 p c) (Or.inr hm'par)
      refine ⟨h1, ?_⟩
      rw [h2]
      have hef : (storeAddEdge m2 p c).edges.toFinset = insert (p, c) m.edges.toFinset := by
        rw [storeAddEdge_edges_toFinset]
      rw [hef]
      ext x
      simp [List.filter_cons, hc, or_comm, or_assoc, or_left_comm]

lemma fitLoop_foreign (p q : String) (hq : q ≠ "") (hqp : q ≠ p) :
    ∀ (cols : List String) (m : NaiveBayesModel), m.parent_node = some q →
      (∃ c ∈ cols, c ≠ p) → fitLoop p m cols = (some StructureViolation, m) := by
  intro cols
  induction cols with
  | nil => rintro m _ ⟨c, hc, _⟩; cases hc
  | cons c rest ih =>
    intro m hpar hex
    by_cases hc : c = p
    · rw [fitLoop_cons_eq, if_pos hc]
      apply ih m hpar
      obtain ⟨c', hc', hcp⟩ := hex
      rcases List.mem_cons.mp hc' with rfl | h
      · exact absurd hc hcp
      · exact ⟨c', h, hcp⟩
    · have hguard : m.add_edge p c = (some StructureViolation, m) := by
        unfold NaiveBayesModel.add_edge
        rw [if_pos]
        constructor
        · rw [hpar]; simp [pyBool, hq]
        · rw [hpar]; simp [hqp]
      simp only [fitLoop_cons_eq, if_neg hc, hguard]

lemma charList_singleton (s : String) (h : s.length = 1) : charList s = [s] := by
  cases s with
  | mk data =>
    cases data with
    | nil =>
      have h0 : (String.mk []).length = 0 := rfl
      rw [h0] at h
      cases h
    | cons c rest =>
      cases rest with
      | nil => rfl
      | cons d t =>
        have h2 : (String.mk (c :: d :: t)).length = t.length + 2 := rfl
        rw [h2] at h
        omega

lemma length_one_ne_empty (s : String) (h : s.length = 1) : s ≠ "" := by
  intro hs
  rw [hs] at h
  cases h

lemma initLoop_const (p : String) :
    ∀ es : List (String × String), (∀ e ∈ es, e.1 = p) →
      initLoop (some p) es = .ok (some p) := by
  intro es
  induction es with
  | nil => intro _; rfl
  | cons e rest ih =>
    intro h
    obtain ⟨par, c⟩ := e
    have hpar : par = p := h (par, c) (List.mem_cons_self _ _)
    rw [hpar]
    simp only [initLoop]
    rw [if_neg (by simp)]
    exact ih (fun e he => h e (List.mem_cons_of_mem _ he))

lemma initLoop_start (p : String) (es : List (String × String)) (hne : es ≠ [])
    (h : ∀ e ∈ es, e.1 = p) : initLoop none es = .ok (some p) := by
  cases es with
  | nil => cases hne rfl
  | cons e rest =>
    obtain ⟨par, c⟩ := e
    have hpar : par = p := h _ (List.mem_cons_self _ _)
    rw [hpar]
    simp only [initLoop]
    rw [if_neg (by simp [pyBool])]
    exact initLoop_const p rest (fun e he => h e (List.mem_cons_of_mem _ he))

lemma foldl_store_ne_nil :
    ∀ (l : List (String × String)) (m : NaiveBayesModel), l ≠ [] →
      (l.foldl (fun m e => storeAddEdge m e.1 e.2) m).edges ≠ [] := by
  intro l
  induction l with
  | nil => intro m h; cases h rfl
  | cons e rest ih =>
    intro m _
    cases rest with
    | nil => simpa using storeAddEdge_edges_ne_nil m e.1 e.2
    | cons f t =>
      exact ih (storeAddEdge m e.1 e.2) (by simp)

lemma foldl_store_facts (p : String) :
    ∀ (l : List (String × String)) (m : NaiveBayesModel),
      (∀ e ∈ l, e.1 = p) → (∀ e ∈ l, e.2 ≠ p) →
      (∀ e ∈ m.edges, e.1 = p) →
      m.nodes.toFinset \ {p} = (m.edges.map Prod.snd).toFinset →
      p ∉ (m.edges.map Prod.snd).toFinset →
      (∀ e ∈ (l.foldl (fun m e => storeAddEdge m e.1 e.2) m).edges, e.1 = p) ∧
      (l.foldl (fun m e => storeAddEdge m e.1 e.2) m).nodes.toFinset \ {p} =
        ((l.foldl (fun m e => storeAddEdge m e.1 e.2) m).edges.map Prod.snd).toFinset ∧
      p ∉ ((l.foldl (fun m e => storeAddEdge m e.1 e.2) m).edges.map Prod.snd).toFinset := by
  intro l
  induction l with
  | nil => intro m _ _ h1 h2 h3; exact ⟨h1, h2, h3⟩
  | cons e rest ih =>
    intro m hsrc htar h1 h2 h3
    obtain ⟨u, v⟩ := e
    have hu : u = p := hsrc (u, v) (List.mem_cons_self _ _)
    have hv : v ≠ p := htar (u, v) (List.mem_cons_self _ _)
    simp only [List.foldl_cons]
    rw [hu]
    apply ih (storeAddEdge m p v)
      (fun e he => hsrc e (List.mem_cons_of_mem _ he))
      (fun e he => htar e (List.mem_cons_of_mem _ he))
    · intro e he
      rw [mem_storeAddEdge_edges] at he
      rcases he with he | rfl
      · exact h1 e he
      · rfl
    · rw [storeAddEdge_nodes_toFinset, storeAddEdge_targets, ← h2]
      ext x
      simp only [Finset.mem_sdiff, Finset.mem_insert, Finset.mem_singleton]
      constructor
      · rintro ⟨(rfl | rfl | hx), hxp⟩
        · left; rfl
        · exact absurd rfl hxp
        · right; exact ⟨hx, hxp⟩
      · rintro (rfl | ⟨hx, hxp⟩)
        · exact ⟨Or.inl rfl, hv⟩
        · exact ⟨Or.inr (Or.inr hx), hxp⟩
    · rw [storeAddEdge_targets]
      simp only [Finset.mem_insert]
      rintro (rfl | hx)
      · exact hv rfl
      · exact h3 hx

lemma construct_ok (ebunch : List (String × String)) (p : String)
    (hall : ∀ e ∈ ebunch, e.1 = p) (htar : ∀ e ∈ ebunch, e.2 ≠ p)
    (hne : ebunch ≠ []) (hlen : p.length = 1) :
    ∃ m', NaiveBayesModel.construct ebunch = .ok m' ∧ m'.parent_node = some p ∧
      naiveBayesInvariant m' ∧ goodParent m' := by
  have hpne : p ≠ "" := length_one_ne_empty p hlen
  obtain ⟨f1, f2, f3⟩ := foldl_store_facts p ebunch NaiveBayesModel.emptyModel
    hall htar
    (by intro e he; exact absurd he (List.not_mem_nil e))
    (by show (([] : List String).toFinset) \ {p}
          = (([] : List (String × String)).map Prod.snd).toFinset
        simp)
    (by show p ∉ (([] : List (String × String)).map Prod.snd).toFinset
        simp)
  set g0 := ebunch.foldl (fun m e => storeAddEdge m e.1 e.2) NaiveBayesModel.emptyModel
    with hg0
  have hedgene : g0.edges ≠ [] := foldl_store_ne_nil ebunch _ hne
  have hloop : initLoop none g0.edges = .ok (some p) :=
    initLoop_start p g0.edges hedgene f1
  have hcon : NaiveBayesModel.construct ebunch =
      .ok { g0 with parent_node := some p,
                    children_nodes := g0.nodes.filter (fun n => n ∉ charList p) } := by
    unfold NaiveBayesModel.construct
    dsimp only
    rw [if_neg hne, ← hg0, hloop]
  refine ⟨_, hcon, rfl, ⟨?_, ?_⟩, Or.inr ⟨p, rfl, hpne⟩⟩
  · intro e he
    show some p = some e.1
    rw [f1 e he]
  · show (g0.nodes.filter (fun n => n ∉ charList p)).toFinset
      = (g0.edges.map Prod.snd).toFinset
    rw [charList_singleton p hlen, ← f2]
    ext x
    simp [List.mem_filter]

lemma active_trail_cond (m : NaiveBayesModel) (observed : List String) :
    (((!observed.isEmpty) && (match m.parent_node with
        | some p => observed.contains p
        | none => false)) = true)
      ↔ observed ≠ [] ∧ ∃ p, m.parent_node = some p ∧ p ∈ observed := by
  cases hpn : m.parent_node with
  | none => simp [hpn]
  | some p => simp [hpn, List.isEmpty_iff]

/-! ## Claims -/

/-- C1, counterexample: after `add_edge("a","b")` is run twice on an empty
model, the store holds the single edge `("a","b")` but `children_nodes` is
the list `["b","b"]` — re-adding an existing edge does append a duplicate
child entry, so `children_nodes` is not duplicate-free as the claim states. -/
theorem c1_duplicate_child_counterexample :
    (((NaiveBayesModel.emptyModel.add_edge "a" "b").2.add_edge "a" "b").2.edges
        = [("a", "b")]) ∧
    (((NaiveBayesModel.emptyModel.add_edge "a" "b").2.add_edge "a" "b").2.children_nodes
        = ["b", "b"]) ∧
    ¬ (((NaiveBayesModel.emptyModel.add_edge "a" "b").2.add_edge "a" "b").2.children_nodes).Nodup := by
  decide

/-- C1 (amended): after every `add_edge` and every `fit` on an
invariant-satisfying structure whose parent is unset or non-empty-named (the
inserted source likewise non-empty), the single-parent invariant holds at
the set level: every edge in the store has `parent_node` as its source and
the entries of `children_nodes` are exactly the distinct edge targets
(though `children_nodes` may carry duplicate entries); a parent with a
non-empty name, once set, is never changed by `add_edge` or `fit`.  Bulk
construction establishes the same invariant only for a non-empty edge list
with one single-character common source all of whose targets differ from
it — for a multi-character source the parent stays among `children_nodes`
(see the C3 theorem). -/
theorem c1_invariant_after_mutations :
    (∀ (m : NaiveBayesModel) (u v : String), naiveBayesInvariant m → goodParent m →
      u ≠ "" →
      naiveBayesInvariant (m.add_edge u v).2 ∧ goodParent (m.add_edge u v).2 ∧
        ∀ q, m.parent_node = some q → q ≠ "" →
          (m.add_edge u v).2.parent_node = some q) ∧
    (∀ (m : NaiveBayesModel) (cols : List String) (p : String),
      naiveBayesInvariant m → goodParent m → p ≠ "" →
      naiveBayesInvariant (m.fit cols p).2 ∧ goodParent (m.fit cols p).2 ∧
        ∀ q, m.parent_node = some q → q ≠ "" →
          (m.fit cols p).2.parent_node = some q) ∧
    (∀ (ebunch : List (String × String)) (p : String),
      (∀ e ∈ ebunch, e.1 = p) → (∀ e ∈ ebunch, e.2 ≠ p) → ebunch ≠ [] →
      p.length = 1 →
      ∃ m', NaiveBayesModel.construct ebunch = .ok m' ∧ m'.parent_node = some p ∧
        naiveBayesInvariant m') := by
  refine ⟨?_, ?_, ?_⟩
  · intro m u v hI hg hu
    exact add_edge_preserves m u v hI hg hu
  · intro m cols p hI hg hp
    unfold NaiveBayesModel.fit
    split
    · exact ⟨hI, hg, fun q hq _ => hq⟩
    · exact fitLoop_preserves p hp cols m hI hg
  · intro ebunch p hall htar hne hlen
    obtain ⟨m', h1, h2, h3, _⟩ := construct_ok ebunch p hall htar hne hlen
    exact ⟨m', h1, h2, h3⟩

/-- C1 witness: the amended invariant theorem applied at a concrete input. -/
theorem c1_invariant_after_mutations_witness :
    naiveBayesInvariant (NaiveBayesModel.emptyModel.add_edge "a" "b").2 :=
  (c1_invariant_after_mutations.1 NaiveBayesModel.emptyModel "a" "b"
    (by decide) (by decide) (by decide)).1

/-- C2, counterexample: `add_edge("", "b")` sets `parent_node` to the falsy
name `""`; a subsequent `add_edge("x", "y")` with source `"x" ≠ ""` raises
nothing (the truthiness test `if self.parent_node` sees `""` as unset) and
silently re-roots the model, against the claim that any `add_edge(q, r)` with
`q` different from the set parent raises StructureViolation. -/
theorem c2_falsy_parent_counterexample :
    ((NaiveBayesModel.emptyModel.add_edge "" "b").2.parent_node = some "") ∧
    (((NaiveBayesModel.emptyModel.add_edge "" "b").2.add_edge "x" "y").1 = none) ∧
    (((NaiveBayesModel.emptyModel.add_edge "" "b").2.add_edge "x" "y").2.parent_node
        = some "x") := by
  decide

/-- C2 (amended): for every structure whose `parent_node` is set to a
non-empty name `p` and every `q ≠ p`, `add_edge(q, r)` raises
StructureViolation and returns with `parent_node`, `children_nodes` and the
graph store exactly as they were before the call. -/
theorem c2_add_edge_rejected_unchanged (m : NaiveBayesModel) (p q r : String)
    (hp : m.parent_node = some p) (hpne : p ≠ "") (hq : q ≠ p) :
    m.add_edge q r = (some StructureViolation, m) := by
  unfold NaiveBayesModel.add_edge
  rw [if_pos]
  constructor
  · rw [hp]; simp [pyBool, hpne]
  · rw [hp]
    intro hc
    exact hq (Option.some.inj hc).symm

/-- C2 witness: the rejection theorem applied at a concrete input. -/
theorem c2_add_edge_rejected_unchanged_witness :
    (NaiveBayesModel.emptyModel.add_edge "a" "b").2.add_edge "c" "d"
      = (some StructureViolation, (NaiveBayesModel.emptyModel.add_edge "a" "b").2) :=
  c2_add_edge_rejected_unchanged (NaiveBayesModel.emptyModel.add_edge "a" "b").2
    "a" "c" "d" (by decide) (by decide) (by decide)

/-- C3: bulk construction from the single-source list `[("ab","c")]`
succeeds, but `children_nodes` comes out as `["ab","c"]` — the line
`set(self.nodes()) - set(self.parent_node)` subtracts the characters
`"a"`, `"b"` of the parent's name rather than the parent itself, so the
parent `"ab"` stays among the children, against the claimed
`children_nodes = {c1,...,cn} = {"c"}`.  (For a single-character source the
claim's computation agrees; see the C1 theorem's construction clause.) -/
theorem c3_construct_children_divergence :
    NaiveBayesModel.construct [("ab", "c")] =
      .ok ⟨["ab", "c"], [("ab", "c")], some "ab", ["ab", "c"]⟩ ∧
    (["ab", "c"] : List String).toFinset ≠ ({"c"} : Finset String) := by
  constructor
  · rfl
  · decide

/-- C4: on the model with parent `"a"` and children `"bc"`, `"d"`, calling
`active_trail_nodes("bc", observed=["a"])` (parent observed) returns
`set("bc") = {"b","c"}` — the one-character strings of `start` — and not the
claimed singleton `{start} = {"bc"}`, which is not even a member of the
result. -/
theorem c4_active_trail_start_divergence :
    ((((NaiveBayesModel.emptyModel.add_edge "a" "bc").2.add_edge "a" "d").2.active_trail_nodes
        "bc" ["a"]) = ({"b", "c"} : Finset String)) ∧
    "bc" ∉ (((NaiveBayesModel.emptyModel.add_edge "a" "bc").2.add_edge "a" "d").2.active_trail_nodes
        "bc" ["a"]) := by
  constructor <;> decide

/-- C5: whenever the observed list does not contain the parent (including
the empty list, and any structure with no parent set), `active_trail_nodes`
returns all nodes of the structure minus the observed ones, whatever the
start node is. -/
theorem c5_active_trail_parent_unobserved :
    (∀ (m : NaiveBayesModel) (start : String) (observed : List String) (p : String),
      m.parent_node = some p → p ∉ observed →
      m.active_trail_nodes start observed = m.nodes.toFinset \ observed.toFinset) ∧
    (∀ (m : NaiveBayesModel) (start : String) (observed : List String),
      m.parent_node = none →
      m.active_trail_nodes start observed = m.nodes.toFinset \ observed.toFinset) := by
  constructor
  · intro m start observed p hp hpo
    unfold NaiveBayesModel.active_trail_nodes
    rw [if_neg]
    intro hc
    obtain ⟨-, q, hq, hqo⟩ := (active_trail_cond m observed).mp hc
    rw [hp] at hq
    exact hpo ((Option.some.inj hq) ▸ hqo)
  · intro m start observed hp
    unfold NaiveBayesModel.active_trail_nodes
    rw [if_neg]
    intro hc
    obtain ⟨-, q, hq, -⟩ := (active_trail_cond m observed).mp hc
    rw [hp] at hq
    cases hq

/-- C5 witness: the theorem applied at a concrete model, start and observed
list. -/
theorem c5_active_trail_parent_unobserved_witness :
    (((NaiveBayesModel.emptyModel.add_edge "a" "b").2.add_edge "a" "c").2.active_trail_nodes
        "b" ["c"])
      = (((NaiveBayesModel.emptyModel.add_edge "a" "b").2.add_edge "a" "c").2.nodes.toFinset
          \ (["c"] : List String).toFinset) :=
  c5_active_trail_parent_unobserved.1
    ((NaiveBayesModel.emptyModel.add_edge "a" "b").2.add_edge "a" "c").2
    "b" ["c"] "a" (by decide) (by decide)

/-- C6: on the model with parent `"a"` and children `"bc"`, `"d"`, querying
the child `"bc"` yields the assertion `(bc ⊥ {"bc","d"} | a)`:
`set(self.children_nodes) - set(variable)` removes the characters `"b"`,
`"c"` of the queried name rather than the child itself, so the queried child
stays inside its own independent-of set, against the claimed "all other
children" `{"d"}`.  (For single-character children the computation agrees
with the claim.) -/
theorem c6_local_independencies_divergence :
    ((((NaiveBayesModel.emptyModel.add_edge "a" "bc").2.add_edge "a" "d").2.local_independencies
        (.pyList [.pyStr "bc"]))
      = .ok [some ⟨"bc", {"bc", "d"}, some "a"⟩]) ∧
    ("bc" ∈ ({"bc", "d"} : Finset String)) ∧
    (({"bc", "d"} : Finset String) ≠ ({"d"} : Finset String)) := by
  refine ⟨by decide, by decide, by decide⟩

/-- C7, counterexample: a model already rooted at the parent `"B"` and a
dataset whose only column is the requested parent `"A"`: `fit(data, "A")`
raises nothing — the loop never reaches `add_edge` because there is no
non-parent column — although the claim demands a StructureViolation whenever
the model already had a different parent fixed. -/
theorem c7_fit_foreign_parent_counterexample :
    ((NaiveBayesModel.emptyModel.add_edge "B" "x").2.parent_node = some "B") ∧
    ("B" ≠ "A") ∧
    (((NaiveBayesModel.emptyModel.add_edge "B" "x").2.fit ["A"] "A").1 = none) := by
  decide

/-- C7 (amended): if the parent column belongs to the data, then (1) on an
empty model `fit` raises nothing and produces exactly one edge `(p, c)` per
non-parent column `c`, in column order; (2) on a model already rooted at the
same parent `fit` raises nothing and the edge set becomes the old edges plus
`(p, c)` for every non-parent column `c` (error `none` meaning the completed
structure and the data are handed to the external estimator); (3) on a model
rooted at a different parent with a non-empty name, `fit` raises
StructureViolation and leaves the state unchanged, provided the data has at
least one non-parent column (with no non-parent column it raises nothing;
a parent with the falsy name `""` is silently re-rooted, see the C2
counterexample). -/
theorem c7_fit_structure_completion :
    (∀ (cols : List String) (p : String), p ∈ cols → cols.Nodup →
      (NaiveBayesModel.emptyModel.fit cols p).1 = none ∧
      (NaiveBayesModel.emptyModel.fit cols p).2.edges
        = (cols.filter (fun c => c ≠ p)).map (fun c => (p, c))) ∧
    (∀ (m : NaiveBayesModel) (cols : List String) (p : String), p ∈ cols →
      m.parent_node = some p →
      (m.fit cols p).1 = none ∧
      (m.fit cols p).2.edges.toFinset
        = m.edges.toFinset ∪
            ((cols.filter (fun c => c ≠ p)).map (fun c => (p, c))).toFinset) ∧
    (∀ (m : NaiveBayesModel) (cols : List String) (p q : String), p ∈ cols →
      m.parent_node = some q → q ≠ "" → q ≠ p → (∃ c ∈ cols, c ≠ p) →
      m.fit cols p = (some StructureViolation, m)) := by
  refine ⟨?_, ?_, ?_⟩
  · intro cols p hp hnd
    obtain ⟨h1, h2⟩ := fitLoop_fresh p cols NaiveBayesModel.emptyModel (Or.inl rfl)
      hnd (fun c _ hmem => absurd hmem (List.not_mem_nil _))
    unfold NaiveBayesModel.fit
    rw [if_neg (not_not_intro hp)]
    exact ⟨h1, h2.trans (List.nil_append _)⟩
  · intro m cols p hp hpar
    obtain ⟨h1, h2⟩ := fitLoop_union p cols m (Or.inr hpar)
    unfold NaiveBayesModel.fit
    rw [if_neg (not_not_intro hp)]
    exact ⟨h1, h2⟩
  · intro m cols p q hp hpar hq hqp hex
    unfold NaiveBayesModel.fit
    rw [if_neg (not_not_intro hp)]
    exact fitLoop_foreign p q hq hqp cols m hpar hex

/-- C7 witness: the completion theorem applied to an empty model and the
columns `A, B`. -/
theorem c7_fit_structure_completion_witness :
    (NaiveBayesModel.emptyModel.fit ["A", "B"] "A").1 = none ∧
    (NaiveBayesModel.emptyModel.fit ["A", "B"] "A").2.edges = [("A", "B")] := by
  have h := c7_fit_structure_completion.1 ["A", "B"] "A" (by decide) (by decide)
  exact ⟨h.1, h.2.trans (by decide)⟩

/-- C8: whenever the designated parent is not among the data's columns,
`fit` raises the DataSchemaError message and returns with the whole state —
`parent_node`, `children_nodes` and the graph store — exactly as before the
call; the check precedes the edge-adding loop. -/
theorem c8_fit_missing_column (m : NaiveBayesModel) (cols : List String)
    (p : String) (h : p ∉ cols) :
    m.fit cols p = (some (DataSchemaError p), m) := by
  unfold NaiveBayesModel.fit
  rw [if_pos h]

/-- C8 witness: the theorem applied at a concrete model and missing column. -/
theorem c8_fit_missing_column_witness :
    (NaiveBayesModel.emptyModel.add_edge "a" "b").2.fit ["A", "B"] "Z"
      = (some (DataSchemaError "Z"), (NaiveBayesModel.emptyModel.add_edge "a" "b").2) :=
  c8_fit_missing_column (NaiveBayesModel.emptyModel.add_edge "a" "b").2
    ["A", "B"] "Z" (by decide)

/-- C9, counterexample: with parent `"a"`, start `"bc"` and
`observed = ["bc","a"]` (both start and parent observed), the first branch
returns `set("bc") = {"b","c"}`, which does **not** contain the start node
`"bc"` — against the claim that in the parent-observed branch the returned
set contains start. -/
theorem c9_start_observed_counterexample :
    ("bc" ∈ (["bc", "a"] : List String)) ∧
    ((((NaiveBayesModel.emptyModel.add_edge "a" "bc").2.add_edge "a" "d").2.active_trail_nodes
        "bc" ["bc", "a"]) = ({"b", "c"} : Finset String)) ∧
    "bc" ∉ (((NaiveBayesModel.emptyModel.add_edge "a" "bc").2.add_edge "a" "d").2.active_trail_nodes
        "bc" ["bc", "a"]) := by
  refine ⟨by decide, by decide, by decide⟩

/-- C9 (amended): for a single-character start node contained in the
observed list, the two branches do treat it inconsistently: when the parent
is observed the result contains start, and when the parent is not observed
start is excluded (the result being all nodes minus observed); for a
multi-character start even the first branch loses it, as the counterexample
shows. -/
theorem c9_start_observed_dichotomy (m : NaiveBayesModel) (start : String)
    (observed : List String) (p : String) (hp : m.parent_node = some p)
    (hs : start ∈ observed) :
    (p ∈ observed → start.length = 1 → start ∈ m.active_trail_nodes start observed) ∧
    (p ∉ observed → start ∉ m.active_trail_nodes start observed) := by
  constructor
  · intro hpo hlen
    unfold NaiveBayesModel.active_trail_nodes
    rw [if_pos ((active_trail_cond m observed).mpr
      ⟨List.ne_nil_of_mem hs, p, hp, hpo⟩)]
    rw [charList_singleton start hlen]
    simp
  · intro hpo
    unfold NaiveBayesModel.active_trail_nodes
    rw [if_neg]
    · simp [hs]
    · intro hc
      obtain ⟨-, q, hq, hqo⟩ := (active_trail_cond m observed).mp hc
      rw [hp] at hq
      exact hpo ((Option.some.inj hq) ▸ hqo)

/-- C9 witness: the dichotomy theorem applied at a concrete model with
single-character start `"b"` observed together with the parent `"a"`. -/
theorem c9_start_observed_dichotomy_witness :
    "b" ∈ (((NaiveBayesModel.emptyModel.add_edge "a" "b").2.add_edge "a" "c").2.active_trail_nodes
        "b" ["b", "a"]) :=
  (c9_start_observed_dichotomy
    ((NaiveBayesModel.emptyModel.add_edge "a" "b").2.add_edge "a" "c").2
    "b" ["b", "a"] "a" (by decide) (by decide)).1 (by decide) (by decide)

/-- C10: the normalisation on source line 185 wraps exactly the string
arguments into a one-element sequence; every non-string argument is handed
to iteration instead (a list contributes its elements, an integer raises
TypeError), so a single non-string node is never treated as the single-node
case. -/
theorem c10_non_string_not_singleton :
    (∀ s : String, normalizeVariables (.pyStr s) = .ok [.pyStr s]) ∧
    (∀ v : PyObj, (∀ s, v ≠ .pyStr s) → normalizeVariables v ≠ .ok [v]) := by
  constructor
  · intro s; rfl
  · intro v hv
    cases v with
    | pyStr s => exact absurd rfl (hv s)
    | pyInt n => exact fun h => Except.noConfusion h
    | pyList xs =>
      intro h
      have hx : xs = [PyObj.pyList xs] := Except.ok.inj h
      have hsz := congrArg (fun l : List PyObj => sizeOf l) hx
      simp at hsz
      omega

/-- C10 witness: the theorem applied to the integer node `5`. -/
theorem c10_non_string_not_singleton_witness :
    normalizeVariables (.pyInt 5) ≠ .ok [.pyInt 5] :=
  c10_non_string_not_singleton.2 (.pyInt 5) (fun _ h => PyObj.noConfusion h)
